import Mathlib

/-!
# Verification of `src/utils/csv.ts` (singularity-app)

Shallow embedding of the JSON-to-CSV converter. JavaScript values that can
appear in a parsed JSON document are modelled by `JsValue`; a JSON object
(`JsonRecord` in the source) is modelled as an association list that keeps the
key iteration order. JS numbers are modelled by their canonical decimal
string form (the output of `Number::toString`, which is also what
`JSON.stringify` prints for a finite number); the number zero is represented
by the string "0". Exceptions are modelled with `Except`.
-/

/-- A JSON value as held in memory after `JSON.parse`.
A finite number is represented by its canonical decimal string. -/
inductive JsValue where
  | str (s : String)
  | num (rep : String)
  | bool (b : Bool)
  | null
  | arr (elems : List JsValue)
  | obj (fields : List (String × JsValue))

/-- A `JsonRecord` of the source: one JSON object, keys in iteration order. -/
def Record : Type := List (String × JsValue)

instance : Inhabited Record := ⟨([] : List (String × JsValue))⟩

/-- Property access `r[k]`: `none` models the JS value `undefined`. -/
def lookupField : Record → String → Option JsValue
  | [], _ => none
  | (k2, v) :: rest, k => if k2 = k then some v else lookupField rest k

/-- `Object.keys(r)` (insertion order; the records here use identifier keys,
so the JS reordering of integer-like keys does not arise). -/
def keysOf (r : Record) : List String :=
  (r : List (String × JsValue)).map Prod.fst

/-- JS truthiness of a `JsValue` (the test made by `x || ""`).
`0` and `NaN` are the falsy numbers; `NaN` never comes out of `JSON.parse`,
and a finite number is zero exactly when its canonical form is "0". -/
def JsValue.truthy : JsValue → Bool
  | .str s => s ≠ ""
  | .num rep => rep ≠ "0"
  | .bool b => b
  | .null => false
  | .arr _ => true
  | .obj _ => true

/-- Lower-case hexadecimal digit for `n < 16`. -/
def hexDigitChar (n : Nat) : Char :=
  if n < 10 then Char.ofNat (48 + n) else Char.ofNat (87 + n)

/-- `JSON.stringify`'s escaping of one character inside a string literal. -/
def escapeChar (c : Char) : String :=
  if c = '"' then "\\\""
  else if c = '\\' then "\\\\"
  else if c = '\n' then "\\n"
  else if c = '\r' then "\\r"
  else if c = '\t' then "\\t"
  else if c = Char.ofNat 8 then "\\b"
  else if c = Char.ofNat 12 then "\\f"
  else if c.toNat < 32 then
    "\\u00" ++ String.singleton (hexDigitChar (c.toNat / 16))
             ++ String.singleton (hexDigitChar (c.toNat % 16))
  else String.singleton c

/-- Concatenation of a list of strings. -/
def concatAll : List String → String
  | [] => ""
  | s :: rest => s ++ concatAll rest

/-- The JSON string literal for `s`: surrounding quotes plus escaping. -/
def quoteStr (s : String) : String :=
  "\"" ++ concatAll (s.data.map escapeChar) ++ "\""

mutual

/-- `JSON.stringify` on a `JsValue` (no indentation argument). -/
def jsonStringify : JsValue → String
  | .str s => quoteStr s
  | .num rep => rep
  | .bool b => if b then "true" else "false"
  | .null => "null"
  | .arr elems => "[" ++ stringifyElems elems ++ "]"
  | .obj fields => "\x7b" ++ stringifyFields fields ++ "\x7d"

/-- Comma-separated serialization of array elements. -/
def stringifyElems : List JsValue → String
  | [] => ""
  | [v] => jsonStringify v
  | v :: w :: rest => jsonStringify v ++ "," ++ stringifyElems (w :: rest)

/-- Comma-separated serialization of object entries. -/
def stringifyFields : List (String × JsValue) → String
  | [] => ""
  | [(k, v)] => quoteStr k ++ ":" ++ jsonStringify v
  | (k, v) :: kv :: rest => quoteStr k ++ ":" ++ jsonStringify v ++ "," ++ stringifyFields (kv :: rest)

end

/-- `Array.prototype.join(sep)`. -/
def joinSep (sep : String) : List String → String
  | [] => ""
  | [s] => s
  | s :: t :: rest => s ++ sep ++ joinSep sep (t :: rest)

/-- `JSON.stringify(v_opt || "")`: the text of one CSV cell, where `none`
models the field being absent (`undefined`). -/
def cellValue (v : Option JsValue) : String :=
  match v with
  | some x => if x.truthy then jsonStringify x else "\"\""
  | none => "\"\""

/-- The cell for a base header `h`: `JSON.stringify(row[header] || "")`. -/
def baseCell (row : Record) (h : String) : String :=
  cellValue (lookupField row h)

/-- `row.SGPA?.[sem]`: the semester entry inside the nested `SGPA` mapping.
Optional chaining yields `undefined` when `SGPA` is absent or `null`, and
property access on a non-object JSON value also yields `undefined`. -/
def sgpaLookup (row : Record) (sem : String) : Option JsValue :=
  match lookupField row "SGPA" with
  | some (.obj fields) => lookupField fields sem
  | _ => none

/-- Splitting a code-point sequence at a separator character. -/
def splitOnChar (sep : Char) : List Char → List (List Char)
  | [] => [[]]
  | c :: rest =>
    let r := splitOnChar sep rest
    if c = sep then [] :: r
    else (c :: r.headI) :: r.tail

/-- `header.split("_")[1]`: the semester key carried by a synthetic header
(for the headers in use the separator is the single character "_"). -/
def semKeyOf (h : String) : String :=
  String.mk ((splitOnChar '_' h.data).getD 1 [])

/-- The cell for a synthetic header such as "SGPA_sem3":
`JSON.stringify(row.SGPA?.[header.split("_")[1]] || "")`. -/
def sgpaCell (row : Record) (h : String) : String :=
  cellValue (sgpaLookup row (semKeyOf h))

/-- The final cell: `JSON.stringify(row.instituteName || "")`. -/
def instituteCell (row : Record) : String :=
  cellValue (lookupField row "instituteName")

/-- Does the record carry a string-valued `rollNo`?  When it does not,
`b.rollNo.localeCompare(...)` raises a `TypeError` inside the comparator. -/
def hasStrRollNo (r : Record) : Bool :=
  match lookupField r "rollNo" with
  | some (.str _) => true
  | _ => false

/-- The string value of `rollNo` (only consulted on records that pass
`hasStrRollNo`). -/
def rollNoStr (r : Record) : String :=
  match lookupField r "rollNo" with
  | some (.str s) => s
  | _ => ""

/-- Lexicographic less-or-equal on code-point sequences. -/
def charListLe : List Char → List Char → Bool
  | [], _ => true
  | _ :: _, [] => false
  | a :: as, b :: bs =>
    if a.toNat < b.toNat then true
    else if b.toNat < a.toNat then false
    else charListLe as bs

/-- `a.localeCompare(b) <= 0`, with `localeCompare` modelled as code-point
lexicographic comparison (it coincides with the default locale on the ASCII
alphanumeric roll numbers this data carries). -/
def strLe (a b : String) : Bool := charListLe a.data b.data

theorem charListLe_total : ∀ as bs : List Char,
    charListLe as bs = true ∨ charListLe bs as = true
  | [], _ => Or.inl rfl
  | _ :: _, [] => Or.inr rfl
  | a :: as, b :: bs => by
    rw [charListLe, charListLe]
    by_cases h1 : a.toNat < b.toNat
    · left; rw [if_pos h1]
    · by_cases h2 : b.toNat < a.toNat
      · right; rw [if_pos h2]
      · rw [if_neg h1, if_neg h2, if_neg h2, if_neg h1]
        exact charListLe_total as bs

theorem charListLe_trans : ∀ as bs cs : List Char, charListLe as bs = true →
    charListLe bs cs = true → charListLe as cs = true
  | [], _, _, _, _ => rfl
  | _ :: _, [], _, h1, _ => by rw [charListLe] at h1; exact absurd h1 (by decide)
  | _ :: _, _ :: _, [], _, h2 => by rw [charListLe] at h2; exact absurd h2 (by decide)
  | a :: as, b :: bs, c :: cs, h1, h2 => by
    rw [charListLe] at h1 h2 ⊢
    by_cases hab : a.toNat < b.toNat
    · by_cases hbc : b.toNat < c.toNat
      · rw [if_pos (show a.toNat < c.toNat by omega)]
      · rw [if_neg hbc] at h2
        by_cases hcb : c.toNat < b.toNat
        · rw [if_pos hcb] at h2; exact absurd h2 (by decide)
        · rw [if_pos (show a.toNat < c.toNat by omega)]
    · rw [if_neg hab] at h1
      by_cases hba : b.toNat < a.toNat
      · rw [if_pos hba] at h1; exact absurd h1 (by decide)
      · rw [if_neg hba] at h1
        by_cases hbc : b.toNat < c.toNat
        · rw [if_pos (show a.toNat < c.toNat by omega)]
        · rw [if_neg hbc] at h2
          by_cases hcb : c.toNat < b.toNat
          · rw [if_pos hcb] at h2; exact absurd h2 (by decide)
          · rw [if_neg hcb] at h2
            rw [if_neg (show ¬ a.toNat < c.toNat by omega),
              if_neg (show ¬ c.toNat < a.toNat by omega)]
            exact charListLe_trans as bs cs h1 h2

/-- Order produced by the comparator `(a, b) => b.rollNo.localeCompare(a.rollNo)`:
`a` may precede `b` iff the comparator is `≤ 0`, i.e. `b.rollNo ≤ a.rollNo`. -/
def recOrd (a b : Record) : Prop := strLe (rollNoStr b) (rollNoStr a) = true

instance : DecidableRel recOrd := fun a b =>
  inferInstanceAs (Decidable (strLe (rollNoStr b) (rollNoStr a) = true))

instance : IsTotal Record recOrd :=
  ⟨fun a b => (charListLe_total (rollNoStr b).data (rollNoStr a).data).elim Or.inl Or.inr⟩

instance : IsTrans Record recOrd :=
  ⟨fun a b c h1 h2 =>
    charListLe_trans (rollNoStr c).data (rollNoStr b).data (rollNoStr a).data h2 h1⟩

/-- `jsonData.sort((a, b) => b.rollNo.localeCompare(a.rollNo))`, modelled by a
stable sort (ECMAScript requires `Array.prototype.sort` to be stable). -/
def sortRecords (l : List Record) : List Record :=
  List.insertionSort recOrd l

/-- `Object.keys(jsonData[0]).filter(key => key !== "SGPA" && key !== "instituteName")`,
computed on the sorted collection (the source sorts in place first). -/
def baseHeadersOf (l : List Record) : List String :=
  (keysOf (sortRecords l).headI).filter (fun k => !(k == "SGPA") && !(k == "instituteName"))

/-- `Array.from({ length: 8 }, (_, i) => "SGPA_sem" + (i + 1))`. -/
def sgpaHeaders : List String :=
  (List.range 8).map (fun i => "SGPA_sem" ++ toString (i + 1))

/-- `[...baseHeaders, ...sgpaHeaders, "instituteName"]`. -/
def headersOf (l : List Record) : List String :=
  baseHeadersOf l ++ sgpaHeaders ++ ["instituteName"]

/-- One CSV data row: `[...rowData, ...sgpaData, instituteNameData].join(",")`. -/
def mkRow (baseHeaders : List String) (row : Record) : String :=
  joinSep "," (baseHeaders.map (baseCell row) ++ sgpaHeaders.map (sgpaCell row)
    ++ [instituteCell row])

/-- `jsonToCsv` from `src/utils/csv.ts`.  The `Except.error` branch models the
`TypeError` thrown by the sort comparator when some record lacks a string
`rollNo`; the comparator only runs when the array has at least two elements. -/
def jsonToCsv (jsonData : List Record) : Except String String :=
  if jsonData.length = 0 then .ok ""
  else if 2 ≤ jsonData.length ∧ ¬(jsonData.all hasStrRollNo = true) then
    .error "TypeError: cannot read rollNo.localeCompare"
  else
    .ok (joinSep "\n"
      (joinSep "," (headersOf jsonData) :: (sortRecords jsonData).map (mkRow (baseHeadersOf jsonData))))

/-- Observable behaviour of the file system at the two paths given to
`convertJsonFileToCsv`: the outcome of `fs.readFile(inputFilePath)`, of
`JSON.parse` on the content (an `error` covers malformed JSON; the parsed
value is modelled already cast to the record array the source assumes), and
of `fs.writeFile(outputFilePath, csv)`. -/
structure World where
  readResult : Except String String
  parseResult : String → Except String (List Record)
  writeResult : String → Except String Unit

/-- Outcome of one `convertJsonFileToCsv` call: either the success log line
was printed after writing `written` to the output file, or the catch block
logged the diagnostic `err`. -/
inductive ConvertResult where
  | success (written : String)
  | failure (err : String)
  deriving DecidableEq

/-- The body of the `try` block: read, parse, convert, write.  Each step may
raise; a raised error propagates past the remaining steps. -/
def tryBody (w : World) : Except String String :=
  match w.readResult with
  | .error e => .error e
  | .ok data =>
    match w.parseResult data with
    | .error e => .error e
    | .ok jsonData =>
      match jsonToCsv jsonData with
      | .error e => .error e
      | .ok csvData =>
        match w.writeResult csvData with
        | .error e => .error e
        | .ok _ => .ok csvData

/-- `convertJsonFileToCsv`: the `try`/`catch` wrapper.  Every error raised by
the body is caught and turned into a logged diagnostic. -/
def convertJsonFileToCsv (w : World) : ConvertResult :=
  match tryBody w with
  | .ok csvData => .success csvData
  | .error e => .failure e

/-- Characters allowed in the canonical decimal form of a finite JS number. -/
def numChar (c : Char) : Bool :=
  c.isDigit || c = '-' || c = '+' || c = '.' || c = 'e' || c = 'E'

/-- The canonical decimal form of a finite number uses only `numChar`s. -/
def numRepOk (s : String) : Bool := s.data.all numChar

mutual

/-- A `JsValue` is well formed when every number it contains carries a
canonical decimal representation (as `JSON.parse` produces). -/
def JsValue.WF : JsValue → Bool
  | .str _ => true
  | .num rep => numRepOk rep
  | .bool _ => true
  | .null => true
  | .arr elems => wfList elems
  | .obj fields => wfFields fields

/-- All elements of an array are well formed. -/
def wfList : List JsValue → Bool
  | [] => true
  | v :: rest => v.WF && wfList rest

/-- All values of an object are well formed. -/
def wfFields : List (String × JsValue) → Bool
  | [] => true
  | (_, v) :: rest => v.WF && wfFields rest

end

/-- A record is well formed when all its field values are. -/
def recordWF (r : Record) : Bool := wfFields r

/-- `s` contains neither a newline nor a carriage return. -/
def ctlFree (s : String) : Bool := s.data.all (fun c => !(c = '\n') && !(c = '\r'))

theorem ctlFree_append (s t : String) :
    ctlFree (s ++ t) = (ctlFree s && ctlFree t) := by
  simp [ctlFree, String.data_append, List.all_append]

theorem ctlFree_hexDigitChar (n : Nat) (h : n < 16) :
    (!(hexDigitChar n = '\n') && !(hexDigitChar n = '\r')) = true := by
  revert h
  revert n
  decide

theorem ctlFree_singleton (x : Char) :
    ctlFree (String.singleton x) = (!(x = '\n') && !(x = '\r')) := by
  simp [ctlFree, String.singleton]

theorem ctlFree_escapeChar (c : Char) : ctlFree (escapeChar c) = true := by
  unfold escapeChar
  split
  · decide
  · split
    · decide
    · split
      · decide
      · split
        · decide
        · split
          · decide
          · split
            · decide
            · split
              · decide
              · split
                · rename_i hlt
                  rw [ctlFree_append, ctlFree_append, ctlFree_singleton, ctlFree_singleton]
                  rw [ctlFree_hexDigitChar (c.toNat / 16) (by omega)]
                  rw [ctlFree_hexDigitChar (c.toNat % 16) (Nat.mod_lt _ (by omega))]
                  decide
                · rename_i hge
                  rw [ctlFree_singleton]
                  have h1 : ¬ c = '\n' := fun he => hge (by rw [he]; decide)
                  have h2 : ¬ c = '\r' := fun he => hge (by rw [he]; decide)
                  simp [h1, h2]

theorem ctlFree_concatAll (l : List String) (h : ∀ s ∈ l, ctlFree s = true) :
    ctlFree (concatAll l) = true := by
  induction l with
  | nil => decide
  | cons s rest ih =>
    rw [concatAll, ctlFree_append]
    rw [h s (List.mem_cons_self s rest), ih (fun t ht => h t (List.mem_cons_of_mem s ht))]
    rfl

theorem ctlFree_quoteStr (s : String) : ctlFree (quoteStr s) = true := by
  unfold quoteStr
  rw [ctlFree_append, ctlFree_append]
  rw [ctlFree_concatAll (s.data.map escapeChar) ?_]
  · decide
  · intro t ht
    rcases List.mem_map.mp ht with ⟨c, _, hc⟩
    exact hc ▸ ctlFree_escapeChar c

mutual

theorem ctlFree_jsonStringify : ∀ v : JsValue, v.WF = true → ctlFree (jsonStringify v) = true
  | .str s, _ => ctlFree_quoteStr s
  | .num rep, hwf => by
    rw [jsonStringify]
    have hrep : numRepOk rep = true := by rw [JsValue.WF] at hwf; exact hwf
    have hall : ∀ c ∈ rep.data, numChar c = true := by
      simpa [numRepOk, List.all_eq_true] using hrep
    simp only [ctlFree, List.all_eq_true]
    intro c hc
    have hn := hall c hc
    have h1 : ¬ c = '\n' := fun he => by rw [he] at hn; exact absurd hn (by decide)
    have h2 : ¬ c = '\r' := fun he => by rw [he] at hn; exact absurd hn (by decide)
    simp [h1, h2]
  | .bool b, _ => by cases b <;> decide
  | .null, _ => by decide
  | .arr elems, hwf => by
    rw [jsonStringify, ctlFree_append, ctlFree_append]
    rw [ctlFree_elems elems hwf]
    decide
  | .obj fields, hwf => by
    rw [jsonStringify, ctlFree_append, ctlFree_append]
    rw [ctlFree_fields fields hwf]
    decide

theorem ctlFree_elems : ∀ l : List JsValue, wfList l = true → ctlFree (stringifyElems l) = true
  | [], _ => by decide
  | [v], hwf => by
    rw [stringifyElems]
    exact ctlFree_jsonStringify v (by simpa [wfList] using hwf)
  | v :: w :: rest, hwf => by
    rw [stringifyElems, ctlFree_append, ctlFree_append]
    have h1 : v.WF = true := by
      have := hwf; rw [wfList, Bool.and_eq_true] at this; exact this.1
    have h2 : wfList (w :: rest) = true := by
      have := hwf; rw [wfList, Bool.and_eq_true] at this; exact this.2
    rw [ctlFree_jsonStringify v h1, ctlFree_elems (w :: rest) h2]
    decide

theorem ctlFree_fields : ∀ l : List (String × JsValue), wfFields l = true → ctlFree (stringifyFields l) = true
  | [], _ => by decide
  | [(k, v)], hwf => by
    rw [stringifyFields, ctlFree_append, ctlFree_append]
    rw [ctlFree_quoteStr k, ctlFree_jsonStringify v (by simpa [wfFields] using hwf)]
    decide
  | (k, v) :: kv :: rest, hwf => by
    rw [stringifyFields, ctlFree_append, ctlFree_append, ctlFree_append, ctlFree_append]
    have h1 : v.WF = true := by
      have := hwf; rw [wfFields, Bool.and_eq_true] at this; exact this.1
    have h2 : wfFields (kv :: rest) = true := by
      have := hwf; rw [wfFields, Bool.and_eq_true] at this; exact this.2
    rw [ctlFree_quoteStr k, ctlFree_jsonStringify v h1, ctlFree_fields (kv :: rest) h2]
    decide

end

theorem ctlFree_joinSep : ∀ (sep : String) (l : List String), ctlFree sep = true →
    (∀ s ∈ l, ctlFree s = true) → ctlFree (joinSep sep l) = true
  | _, [], _, _ => rfl
  | _, [s], _, h => by rw [joinSep]; exact h s (List.mem_singleton.mpr rfl)
  | sep, s :: t :: rest, hsep, h => by
    rw [joinSep, ctlFree_append, ctlFree_append]
    rw [h s (List.mem_cons_self _ _), hsep]
    rw [ctlFree_joinSep sep (t :: rest) hsep (fun u hu => h u (List.mem_cons_of_mem s hu))]
    rfl

theorem mem_data_joinSep : ∀ (sep : String) (l : List String) (c : Char),
    c ∈ (joinSep sep l).data → c ∈ sep.data ∨ ∃ s ∈ l, c ∈ s.data
  | _, [], _, h => by simp [joinSep] at h
  | _, [s], c, h => by rw [joinSep] at h; exact Or.inr ⟨s, List.mem_singleton.mpr rfl, h⟩
  | sep, s :: t :: rest, c, h => by
    rw [joinSep, String.data_append, String.data_append] at h
    rcases List.mem_append.mp h with h1 | h2
    · rcases List.mem_append.mp h1 with ha | hb
      · exact Or.inr ⟨s, List.mem_cons_self _ _, ha⟩
      · exact Or.inl hb
    · rcases mem_data_joinSep sep (t :: rest) c h2 with hs | ⟨u, hu, hc⟩
      · exact Or.inl hs
      · exact Or.inr ⟨u, List.mem_cons_of_mem s hu, hc⟩

theorem count_nl_eq_zero (s : String) (h : ctlFree s = true) : s.data.count '\n' = 0 := by
  apply List.count_eq_zero.mpr
  intro hmem
  have := (List.all_eq_true.mp h) '\n' hmem
  exact absurd this (by decide)

theorem count_nl_joinSep : ∀ l : List String, l ≠ [] →
    (∀ s ∈ l, ctlFree s = true) → ((joinSep "\n" l).data.count '\n') = l.length - 1
  | [], hne, _ => absurd rfl hne
  | [s], _, h => by
    rw [joinSep]
    simp [count_nl_eq_zero s (h s (List.mem_singleton.mpr rfl))]
  | s :: t :: rest, _, h => by
    rw [joinSep, String.data_append, String.data_append]
    rw [List.count_append, List.count_append]
    rw [count_nl_eq_zero s (h s (List.mem_cons_self _ _))]
    rw [count_nl_joinSep (t :: rest) (List.cons_ne_nil t rest)
      (fun u hu => h u (List.mem_cons_of_mem s hu))]
    simp [List.length_cons]
    omega

theorem wf_lookupField : ∀ (r : List (String × JsValue)) (k : String) (v : JsValue),
    wfFields r = true → lookupField r k = some v → v.WF = true
  | [], _, _, _, hl => by simp [lookupField] at hl
  | (k2, w) :: rest, k, v, hwf, hl => by
    rw [wfFields, Bool.and_eq_true] at hwf
    rw [lookupField] at hl
    by_cases he : k2 = k
    · rw [if_pos he] at hl
      cases hl
      exact hwf.1
    · rw [if_neg he] at hl
      exact wf_lookupField rest k v hwf.2 hl

theorem wf_sgpaLookup (row : Record) (sem : String) (v : JsValue) (hwf : recordWF row = true)
    (h : sgpaLookup row sem = some v) : v.WF = true := by
  unfold sgpaLookup at h
  split at h
  · rename_i fields heq
    have hofw := wf_lookupField row "SGPA" (.obj fields) hwf heq
    rw [JsValue.WF] at hofw
    exact wf_lookupField fields sem v hofw h
  · exact absurd h (by simp)

theorem ctlFree_cellValue (o : Option JsValue) (h : ∀ v, o = some v → v.WF = true) :
    ctlFree (cellValue o) = true := by
  cases o with
  | none => rfl
  | some x =>
    rw [show cellValue (some x) = if x.truthy = true then jsonStringify x else "\"\"" from rfl]
    split
    · exact ctlFree_jsonStringify x (h x rfl)
    · rfl

theorem ctlFree_baseCell (row : Record) (h : String) (hwf : recordWF row = true) :
    ctlFree (baseCell row h) = true :=
  ctlFree_cellValue _ (fun v hv => wf_lookupField row h v hwf hv)

theorem ctlFree_sgpaCell (row : Record) (h : String) (hwf : recordWF row = true) :
    ctlFree (sgpaCell row h) = true :=
  ctlFree_cellValue _ (fun v hv => wf_sgpaLookup row _ v hwf hv)

theorem ctlFree_instituteCell (row : Record) (hwf : recordWF row = true) :
    ctlFree (instituteCell row) = true :=
  ctlFree_cellValue _ (fun v hv => wf_lookupField row "instituteName" v hwf hv)

theorem ctlFree_mkRow (bh : List String) (row : Record) (hwf : recordWF row = true) :
    ctlFree (mkRow bh row) = true := by
  unfold mkRow
  apply ctlFree_joinSep _ _ (by decide)
  intro s hs
  rcases List.mem_append.mp hs with hs1 | hs2
  · rcases List.mem_append.mp hs1 with hb | hg
    · rcases List.mem_map.mp hb with ⟨k, _, hk⟩
      exact hk ▸ ctlFree_baseCell row k hwf
    · rcases List.mem_map.mp hg with ⟨k, _, hk⟩
      exact hk ▸ ctlFree_sgpaCell row k hwf
  · rw [List.mem_singleton.mp hs2]
    exact ctlFree_instituteCell row hwf

theorem ctlFree_headerRow (l : List Record)
    (hkeys : ∀ k ∈ keysOf (sortRecords l).headI, ctlFree k = true) :
    ctlFree (joinSep "," (headersOf l)) = true := by
  apply ctlFree_joinSep _ _ (by decide)
  intro s hs
  unfold headersOf at hs
  rcases List.mem_append.mp hs with hs1 | hs2
  · rcases List.mem_append.mp hs1 with hb | hg
    · unfold baseHeadersOf at hb
      exact hkeys s (List.mem_of_mem_filter hb)
    · revert hg
      have : ∀ t ∈ sgpaHeaders, ctlFree t = true := by decide
      exact this s
  · rw [List.mem_singleton.mp hs2]
    rfl

theorem jsonToCsv_ok_eq (l : List Record) (hne : l ≠ []) (hroll : l.all hasStrRollNo = true) :
    jsonToCsv l = .ok (joinSep "\n"
      (joinSep "," (headersOf l) :: (sortRecords l).map (mkRow (baseHeadersOf l)))) := by
  unfold jsonToCsv
  rw [if_neg (by simpa using hne), if_neg (by simp [hroll])]

theorem sortRecords_adjacent (l : List Record) (i : Nat) (hi : i + 1 < (sortRecords l).length) :
    strLe (rollNoStr ((sortRecords l).get ⟨i + 1, hi⟩))
      (rollNoStr ((sortRecords l).get ⟨i, Nat.lt_of_succ_lt hi⟩)) = true := by
  have hs : List.Sorted recOrd (sortRecords l) := List.sorted_insertionSort recOrd l
  exact List.pairwise_iff_get.mp hs ⟨i, Nat.lt_of_succ_lt hi⟩ ⟨i + 1, hi⟩
    (Fin.mk_lt_mk.mpr (Nat.lt_succ_self i))

theorem length_sortRecords (l : List Record) : (sortRecords l).length = l.length :=
  List.length_insertionSort recOrd l

theorem mem_of_mem_sortRecords {r : Record} {l : List Record} (h : r ∈ sortRecords l) : r ∈ l :=
  (List.perm_insertionSort recOrd l).mem_iff.mp h

/-!
## Concrete inputs used to instantiate the claims
-/

/-- Splitting a string at every occurrence of one character. -/
def splitC (sep : Char) (s : String) : List String :=
  (splitOnChar sep s.data).map String.mk

/-- The first record of the round-trip scenario of §8 of the spec. -/
def recA1 : Record :=
  [("rollNo", .str "A1"), ("SGPA", .obj [("sem1", .num "8.5")]), ("instituteName", .str "X")]

/-- The second record of the round-trip scenario of §8 of the spec. -/
def recA3 : Record :=
  [("rollNo", .str "A3"), ("SGPA", .obj []), ("instituteName", .str "Y")]

/-- A record with only a roll number. -/
def recB : Record := [("rollNo", JsValue.str "B")]

/-- A record with only a roll number. -/
def recC : Record := [("rollNo", JsValue.str "C")]

/-- A record exercising every column kind. -/
def recFull : Record :=
  [("rollNo", JsValue.str "R"), ("age", JsValue.num "20"),
   ("SGPA", JsValue.obj [("sem1", JsValue.num "8")]), ("instituteName", JsValue.str "I")]

/-!
## The claims
-/

/-- C1: For every non-empty collection of records, each carrying the string
`rollNo` that §3 of the spec makes part of the Record data model, `jsonToCsv`
succeeds, its data rows are precisely the rows built from the sorted
collection in order, and any two adjacent members of the sorted collection
satisfy `rollNo(row[i]) >= rollNo(row[i+1])` under the comparison used by
`localeCompare`. -/
theorem c1_rows_sorted_by_rollNo_desc (l : List Record) (hne : l ≠ [])
    (hroll : l.all hasStrRollNo = true) :
    jsonToCsv l = .ok (joinSep "\n"
      (joinSep "," (headersOf l) :: (sortRecords l).map (mkRow (baseHeadersOf l))))
    ∧ ∀ (i : Nat) (hi : i + 1 < (sortRecords l).length),
        strLe (rollNoStr ((sortRecords l).get ⟨i + 1, hi⟩))
          (rollNoStr ((sortRecords l).get ⟨i, Nat.lt_of_succ_lt hi⟩)) = true :=
  ⟨jsonToCsv_ok_eq l hne hroll, fun i hi => sortRecords_adjacent l i hi⟩

/-- Witness for C1 at the two-record input `[recB, recC]`. -/
theorem c1_witness :
    strLe (rollNoStr ((sortRecords [recB, recC]).get ⟨1, by decide⟩))
      (rollNoStr ((sortRecords [recB, recC]).get ⟨0, by decide⟩)) = true :=
  (c1_rows_sorted_by_rollNo_desc [recB, recC] (List.cons_ne_nil _ _) rfl).2 0 (by decide)

/-- C2 counterexample: a present numeric field is emitted as unquoted decimal
text, not as a quoted string — the cell for value `5` is `5`, which differs
from the quoted `"5"` the claim prescribes. -/
theorem c2_counterexample :
    baseCell [("score", JsValue.num "5")] "score" = "5"
    ∧ ("5" : String) ≠ "\"5\"" := ⟨rfl, by decide⟩

/-- C2 (amended): for every record and header, the emitted base cell is the
`JSON.stringify` image of the field's value when the value is present and
truthy — a string becomes a quoted, escaped string literal, a number stays
unquoted decimal text — and a missing or falsy value becomes `""`. -/
theorem c2_cell_encoding (row : Record) (h : String) :
    (lookupField row h = none → baseCell row h = "\"\"")
    ∧ (∀ s, lookupField row h = some (.str s) → s ≠ "" →
        baseCell row h = "\"" ++ concatAll (s.data.map escapeChar) ++ "\"")
    ∧ (∀ rep, lookupField row h = some (.num rep) → rep ≠ "0" → baseCell row h = rep)
    ∧ (∀ v, lookupField row h = some v → v.truthy = false → baseCell row h = "\"\"") := by
  refine ⟨?_, ?_, ?_, ?_⟩
  · intro hl; rw [baseCell, hl]; rfl
  · intro s hl hs
    rw [baseCell, hl]
    rw [show cellValue (some (JsValue.str s)) =
      if (JsValue.str s).truthy = true then jsonStringify (JsValue.str s) else "\"\"" from rfl]
    rw [if_pos (show (JsValue.str s).truthy = true by simp [JsValue.truthy, hs])]
    rfl
  · intro rep hl hrep
    rw [baseCell, hl]
    rw [show cellValue (some (JsValue.num rep)) =
      if (JsValue.num rep).truthy = true then jsonStringify (JsValue.num rep) else "\"\"" from rfl]
    rw [if_pos (show (JsValue.num rep).truthy = true by simp [JsValue.truthy, hrep])]
    rfl
  · intro v hl hv
    rw [baseCell, hl]
    rw [show cellValue (some v) =
      if v.truthy = true then jsonStringify v else "\"\"" from rfl]
    rw [if_neg (by simp [hv])]

/-- Witness for C2 at a record holding the number `7`. -/
theorem c2_witness : baseCell [("x", JsValue.num "7")] "x" = "7" :=
  (c2_cell_encoding [("x", JsValue.num "7")] "x").2.2.1 "7" rfl (by decide)

/-- C3 counterexample: on the round-trip input the SGPA_sem1 cell of the
`"A1"` row is the unquoted text `8.5`, not the quoted cell `"8.5"` the claim
prescribes. -/
theorem c3_counterexample :
    (jsonToCsv [recA1, recA3]).map
      (fun s => (splitC ',' ((splitC '\n' s).getD 2 "")).getD 1 "") = .ok "8.5"
    ∧ ("8.5" : String) ≠ "\"8.5\"" := ⟨rfl, by decide⟩

/-- C3 (amended): the round-trip input produces the `"A3"` data row first with
`""` in every SGPA_sem column, then the `"A1"` row with unquoted `8.5` in the
SGPA_sem1 column and `""` in the sem2 through sem8 columns. -/
theorem c3_roundtrip :
    jsonToCsv [recA1, recA3] = .ok
      ("rollNo,SGPA_sem1,SGPA_sem2,SGPA_sem3,SGPA_sem4,SGPA_sem5,SGPA_sem6,SGPA_sem7,SGPA_sem8,instituteName\n\"A3\",\"\",\"\",\"\",\"\",\"\",\"\",\"\",\"\",\"Y\"\n\"A1\",8.5,\"\",\"\",\"\",\"\",\"\",\"\",\"\",\"X\"") :=
  rfl

/-- C4: for every non-empty collection of records with string roll numbers,
the header row consists of the keys of the first record of the sorted
collection, in their own iteration order, minus `SGPA` and `instituteName`,
followed by the eight fixed headers `SGPA_sem1` through `SGPA_sem8` in
numeric order and `instituteName` last. -/
theorem c4_header_structure (l : List Record) (hne : l ≠ [])
    (hroll : l.all hasStrRollNo = true) :
    jsonToCsv l = .ok (joinSep "\n"
      (joinSep "," (headersOf l) :: (sortRecords l).map (mkRow (baseHeadersOf l))))
    ∧ headersOf l =
        ((keysOf (sortRecords l).headI).filter
            (fun k => !(k == "SGPA") && !(k == "instituteName")))
          ++ ["SGPA_sem1", "SGPA_sem2", "SGPA_sem3", "SGPA_sem4", "SGPA_sem5",
              "SGPA_sem6", "SGPA_sem7", "SGPA_sem8", "instituteName"] := by
  refine ⟨jsonToCsv_ok_eq l hne hroll, ?_⟩
  unfold headersOf baseHeadersOf
  rw [List.append_assoc]
  rfl

/-- Witness for C4 at the one-record input `[recFull]`. -/
theorem c4_witness :
    headersOf [recFull] =
      ((keysOf (sortRecords [recFull]).headI).filter
          (fun k => !(k == "SGPA") && !(k == "instituteName")))
        ++ ["SGPA_sem1", "SGPA_sem2", "SGPA_sem3", "SGPA_sem4", "SGPA_sem5",
            "SGPA_sem6", "SGPA_sem7", "SGPA_sem8", "instituteName"] :=
  (c4_header_structure [recFull] (List.cons_ne_nil _ _) rfl).2

/-- The CSV text produced by a successful `jsonToCsv` call (empty on error). -/
def csvOutput (l : List Record) : String :=
  match jsonToCsv l with
  | .ok s => s
  | .error _ => ""

/-- C5 counterexample: one record whose only field name contains a newline.
The output then carries two newline characters, three lines, not the
`N + 1 = 2` lines the claim prescribes for `N = 1` data row. -/
theorem c5_counterexample :
    (jsonToCsv [[("a\nb", JsValue.str "v")]]).map (fun s => s.data.count '\n') = .ok 2
    ∧ (2 : Nat) ≠ 1 := ⟨rfl, by decide⟩

/-- C5 (amended): for every non-empty collection of records with string roll
numbers whose values are well formed and whose first sorted record has field
names free of newline and carriage-return characters, the output is the
header row followed by exactly `N` data rows joined with single newlines:
it contains exactly `N` newline characters (hence `N + 1` lines and no
trailing newline) and no carriage return.  The JSON encoding of cell values
escapes any control character they contain. -/
theorem c5_line_structure (l : List Record) (hne : l ≠ [])
    (hroll : l.all hasStrRollNo = true)
    (hwf : ∀ r ∈ l, recordWF r = true)
    (hkeys : ∀ k ∈ keysOf (sortRecords l).headI, ctlFree k = true) :
    jsonToCsv l = .ok (csvOutput l)
    ∧ csvOutput l = joinSep "\n"
        (joinSep "," (headersOf l) :: (sortRecords l).map (mkRow (baseHeadersOf l)))
    ∧ (csvOutput l).data.count '\n' = l.length
    ∧ '\r' ∉ (csvOutput l).data := by
  have hok := jsonToCsv_ok_eq l hne hroll
  have hout : csvOutput l = joinSep "\n"
      (joinSep "," (headersOf l) :: (sortRecords l).map (mkRow (baseHeadersOf l))) := by
    rw [csvOutput, hok]
  have hitems : ∀ s ∈ (joinSep "," (headersOf l) ::
      (sortRecords l).map (mkRow (baseHeadersOf l))), ctlFree s = true := by
    intro s hs
    rcases List.mem_cons.mp hs with rfl | hs2
    · exact ctlFree_headerRow l hkeys
    · rcases List.mem_map.mp hs2 with ⟨r, hr, hrow⟩
      exact hrow ▸ ctlFree_mkRow (baseHeadersOf l) r (hwf r (mem_of_mem_sortRecords hr))
  refine ⟨by rw [hout]; exact hok, hout, ?_, ?_⟩
  · rw [hout, count_nl_joinSep _ (List.cons_ne_nil _ _) hitems]
    simp [length_sortRecords]
  · rw [hout]
    intro hmem
    rcases mem_data_joinSep _ _ _ hmem with hsep | ⟨s, hs, hc⟩
    · exact absurd hsep (by decide)
    · have := (List.all_eq_true.mp (hitems s hs)) '\r' hc
      exact absurd this (by decide)

/-- Witness for C5 at the one-record input `[recFull]`. -/
theorem c5_witness : (csvOutput [recFull]).data.count '\n' = [recFull].length :=
  (c5_line_structure [recFull] (List.cons_ne_nil _ _) rfl (by decide) (by decide)).2.2.1

/-- C6: the empty input collection yields the empty string — zero characters,
no header row. -/
theorem c6_empty_input : jsonToCsv [] = .ok "" ∧ ("" : String).length = 0 := ⟨rfl, rfl⟩

/-- C7 counterexample: a present but falsy semester value — the number `0`
under `sem1` — is emitted as `""`, not as its JSON encoding `0` the claim
prescribes for every value found at the semester key. -/
theorem c7_counterexample :
    sgpaCell [("rollNo", JsValue.str "R"), ("SGPA", JsValue.obj [("sem1", JsValue.num "0")])]
      "SGPA_sem1" = "\"\""
    ∧ ("\"\"" : String) ≠ "0" := ⟨rfl, by decide⟩

/-- C7 (amended): each SGPA_semN cell is the JSON encoding of the value at
key semN inside the record's nested SGPA mapping when that value is present
and truthy, and `""` when the key is absent, the value is falsy, or `SGPA`
itself is absent; a record missing `instituteName` likewise gets `""` in the
final column. -/
theorem c7_sgpa_and_institute_cells (row : Record) (h : String) :
    (∀ v, sgpaLookup row (semKeyOf h) = some v → v.truthy = true →
        sgpaCell row h = jsonStringify v)
    ∧ (∀ v, sgpaLookup row (semKeyOf h) = some v → v.truthy = false →
        sgpaCell row h = "\"\"")
    ∧ (sgpaLookup row (semKeyOf h) = none → sgpaCell row h = "\"\"")
    ∧ (lookupField row "SGPA" = none → sgpaCell row h = "\"\"")
    ∧ (lookupField row "instituteName" = none → instituteCell row = "\"\"") := by
  refine ⟨?_, ?_, ?_, ?_, ?_⟩
  · intro v hl hv
    rw [sgpaCell, hl]
    rw [show cellValue (some v) =
      if v.truthy = true then jsonStringify v else "\"\"" from rfl]
    rw [if_pos hv]
  · intro v hl hv
    rw [sgpaCell, hl]
    rw [show cellValue (some v) =
      if v.truthy = true then jsonStringify v else "\"\"" from rfl]
    rw [if_neg (by simp [hv])]
  · intro hl; rw [sgpaCell, hl]; rfl
  · intro hl; rw [sgpaCell, sgpaLookup, hl]; rfl
  · intro hl; rw [instituteCell, hl]; rfl

/-- Witness for C7 at a record whose SGPA mapping holds `9` under sem2. -/
theorem c7_witness :
    sgpaCell [("SGPA", JsValue.obj [("sem2", JsValue.num "9")])] "SGPA_sem2"
      = jsonStringify (JsValue.num "9") :=
  (c7_sgpa_and_institute_cells [("SGPA", JsValue.obj [("sem2", JsValue.num "9")])]
    "SGPA_sem2").1 (JsValue.num "9") rfl rfl

/-- C8: for every behaviour of the file system and parser, the conversion
completes with either a success log or a failure diagnostic — no error
escapes the boundary — and a read failure surfaces as the logged diagnostic. -/
theorem c8_errors_swallowed :
    (∀ w : World, (∃ s, convertJsonFileToCsv w = .success s)
        ∨ (∃ e, convertJsonFileToCsv w = .failure e))
    ∧ (∀ (w : World) (e : String), w.readResult = .error e →
        convertJsonFileToCsv w = .failure e) := by
  constructor
  · intro w
    cases h : tryBody w with
    | ok s => exact Or.inl ⟨s, by rw [convertJsonFileToCsv, h]⟩
    | error e => exact Or.inr ⟨e, by rw [convertJsonFileToCsv, h]⟩
  · intro w e hr
    rw [convertJsonFileToCsv, tryBody, hr]

/-- A world whose input file cannot be read. -/
def wReadFail : World := ⟨.error "boom", fun _ => .ok [], fun _ => .ok ()⟩

/-- Witness for C8 at a world whose read fails. -/
theorem c8_witness : convertJsonFileToCsv wReadFail = .failure "boom" :=
  c8_errors_swallowed.2 wReadFail "boom" rfl

/-- A world whose file parses to two records that both lack `rollNo`. -/
def wNoRoll : World := ⟨.ok "json", fun _ => .ok [[], []], fun _ => .ok ()⟩

/-- C9 counterexample: a well-formed JSON array of two objects without
`rollNo` makes the sort comparator raise, so the conversion logs the error
and writes nothing instead of succeeding. -/
theorem c9_counterexample :
    convertJsonFileToCsv wNoRoll = .failure "TypeError: cannot read rollNo.localeCompare" :=
  rfl

/-- C9 (amended): for every input file whose content parses to an array of
objects in which every record carries a string `rollNo` — the one field the
sort requires; no other field is required — the conversion succeeds and
writes the CSV output. -/
theorem c9_success_when_rollNo_present (w : World) (data : String) (l : List Record)
    (hr : w.readResult = .ok data) (hp : w.parseResult data = .ok l)
    (hroll : l.all hasStrRollNo = true) (hw : ∀ s, w.writeResult s = .ok ()) :
    jsonToCsv l = .ok (csvOutput l)
    ∧ convertJsonFileToCsv w = .success (csvOutput l) := by
  have hex : ∃ s, jsonToCsv l = .ok s := by
    unfold jsonToCsv
    by_cases h0 : l.length = 0
    · rw [if_pos h0]; exact ⟨"", rfl⟩
    · rw [if_neg h0, if_neg (by simp [hroll])]; exact ⟨_, rfl⟩
  rcases hex with ⟨s, hs⟩
  have hout : csvOutput l = s := by rw [csvOutput, hs]
  refine ⟨by rw [hs, hout], ?_⟩
  rw [convertJsonFileToCsv, tryBody]
  simp only [hr, hp, hs, hout, hw s]

/-- A world that reads and parses an empty record array and writes cleanly. -/
def wGood : World := ⟨.ok "json", fun _ => .ok [], fun _ => .ok ()⟩

/-- Witness for C9 at a cleanly-behaving world. -/
theorem c9_witness :
    jsonToCsv [] = .ok (csvOutput [])
    ∧ convertJsonFileToCsv wGood = .success (csvOutput []) :=
  c9_success_when_rollNo_present wGood "json" [] rfl rfl rfl (fun _ => rfl)

/-- C10: a present but falsy value — the number `0`, `false`, `null`, or the
empty string — is emitted as the empty quoted cell `""` in base, SGPA and
instituteName positions alike, indistinguishable from an absent field, whose
cell is also `""`. -/
theorem c10_falsy_indistinguishable (v : JsValue)
    (hf : v = .num "0" ∨ v = .bool false ∨ v = .null ∨ v = .str "") :
    cellValue (some v) = "\"\"" ∧ cellValue none = "\"\""
    ∧ (∀ (row : Record) (h : String), lookupField row h = some v → baseCell row h = "\"\"")
    ∧ (∀ (row : Record) (h : String),
        sgpaLookup row (semKeyOf h) = some v → sgpaCell row h = "\"\"")
    ∧ (∀ row : Record, lookupField row "instituteName" = some v →
        instituteCell row = "\"\"") := by
  have hcell : cellValue (some v) = "\"\"" := by
    rcases hf with rfl | rfl | rfl | rfl <;> rfl
  refine ⟨hcell, rfl, ?_, ?_, ?_⟩
  · intro row h hl; rw [baseCell, hl, hcell]
  · intro row h hl; rw [sgpaCell, hl, hcell]
  · intro row hl; rw [instituteCell, hl, hcell]

/-- Witness for C10 at a record holding the number `0`. -/
theorem c10_witness : baseCell [("x", JsValue.num "0")] "x" = "\"\"" :=
  (c10_falsy_indistinguishable (JsValue.num "0") (Or.inl rfl)).2.2.1
    [("x", JsValue.num "0")] "x" rfl
